import Mathlib

/-!
Shallow embedding of the task-store layer of this repository.

The repository contains two versions of the `TaskManager` class:
`src/taskManager.js` (namespace `TaskManager` below) and an earlier
variant in `src/unnamed/part_000` (namespace `TaskManagerV0` below).
Each JS method mutates `this.tasks` and returns a value (or throws);
we embed a method as a function from the task list (the state) to the
pair of the new task list and the returned value, with thrown errors
modelled by `Except String` carrying the thrown message.  Timestamps
(`Date.now()` / `new Date().toISOString()`) are supplied as an explicit
`now : Nat` parameter.  `localStorage` persistence is modelled by the
`Blob` type: the stored entry is absent, is present but fails
`JSON.parse`, or parses to a list of task records (JSON round-trips
records of numbers, strings and booleans faithfully).
-/

deriving instance DecidableEq for Except

namespace TaskManager

/-- Task record created by `addTask` in src/taskManager.js, lines 24-31:
fields id, title, description, priority, completed, createdAt. -/
structure Task where
  id : Nat
  title : String
  description : String
  priority : String
  completed : Bool
  createdAt : Nat
  deriving DecidableEq

/-- The `updates` argument of `updateTask`: a JS object in which each
Task field is either present with a defined value (`some`) or absent /
`undefined` (`none`). -/
structure TaskUpdates where
  id : Option Nat := none
  title : Option String := none
  description : Option String := none
  priority : Option String := none
  completed : Option Bool := none
  createdAt : Option Nat := none
  deriving DecidableEq

/-- State of the `localStorage` entry under the key `tasks`. -/
inductive Blob where
  /-- No entry stored: `localStorage.getItem` returns `null`. -/
  | absent
  /-- An entry is stored but `JSON.parse` throws on it. -/
  | corrupt
  /-- An entry is stored and parses to a list of task records. -/
  | stored (tasks : List Task)
  deriving DecidableEq

/-- Embeds `saveTasks` (src/taskManager.js, lines 107-117): serializes
the current list into the single `tasks` entry. -/
def saveTasks (tasks : List Task) : Blob :=
  .stored tasks

/-- Embeds `init` (src/taskManager.js, lines 8-16): read the blob; a
missing entry gives `[]`, a `JSON.parse` failure is caught and gives
`[]`, otherwise the parsed list is used. -/
def init (b : Blob) : List Task :=
  match b with
  | .absent => []
  | .corrupt => []
  | .stored ts => ts

/-- Embeds `String.prototype.trim` of JS: remove the whitespace at both
ends of the string. -/
def jsTrim (s : String) : String :=
  ⟨((s.data.dropWhile Char.isWhitespace).reverse.dropWhile Char.isWhitespace).reverse⟩

/-- Embeds `String.prototype.toLowerCase` of JS (on the ASCII range). -/
def jsToLower (s : String) : String :=
  ⟨s.data.map Char.toLower⟩

/-- Embeds `addTask` (src/taskManager.js, lines 19-41).  The guard
`!title?.trim()` throws when `title` is `undefined` or trims to the
empty string; otherwise the new record uses the trimmed title,
`description?.trim() ?? ""`, the given priority, `completed: false`,
and the current time for both `id` and `createdAt`; the record is
appended at the end of the list. -/
def addTask (tasks : List Task) (now : Nat) (title description : Option String)
    (priority : String) : List Task × Except String Task :=
  match title with
  | none => (tasks, .error "Task title cannot be empty")
  | some s =>
    if jsTrim s = "" then (tasks, .error "Task title cannot be empty")
    else
      let newTask : Task :=
        { id := now
          title := jsTrim s
          description := (description.map jsTrim).getD ""
          priority := priority
          completed := false
          createdAt := now }
      (tasks ++ [newTask], .ok newTask)

/-- Embeds `deleteTask` (src/taskManager.js, lines 44-56): `findIndex`
on the id; `-1` returns `false` and leaves the list alone, otherwise
the list is filtered to the tasks whose id differs and `true` is
returned. -/
def deleteTask (tasks : List Task) (taskId : Nat) : List Task × Bool :=
  match tasks.findIdx? (fun task => task.id == taskId) with
  | none => (tasks, false)
  | some _ => (tasks.filter (fun task => task.id != taskId), true)

/-- Embeds the merge `{ ...taskToUpdate, ...Object.fromEntries(
Object.entries(updates).filter(([_, value]) => value !== undefined)) }`
of `updateTask` (src/taskManager.js, lines 64-69): each field keeps its
old value unless `updates` carries a defined value for it. -/
def applyUpdates (task : Task) (updates : TaskUpdates) : Task :=
  { id := updates.id.getD task.id
    title := updates.title.getD task.title
    description := updates.description.getD task.description
    priority := updates.priority.getD task.priority
    completed := updates.completed.getD task.completed
    createdAt := updates.createdAt.getD task.createdAt }

/-- Embeds `updateTask` (src/taskManager.js, lines 59-81): `find` on the
id, throwing `Task not found` for `undefined`; otherwise the merged
record replaces every task whose id matches, and is returned. -/
def updateTask (tasks : List Task) (taskId : Nat) (updates : TaskUpdates) :
    List Task × Except String Task :=
  match tasks.find? (fun task => task.id == taskId) with
  | none => (tasks, .error "Task not found")
  | some taskToUpdate =>
    let updatedTask := applyUpdates taskToUpdate updates
    (tasks.map (fun task => if task.id == taskId then updatedTask else task),
      .ok updatedTask)

/-- Embeds `toggleTaskCompletion` (src/taskManager.js, lines 84-104):
`findIndex` on the id, throwing `Task not found` for `-1`; otherwise
the task at that index with `completed` negated replaces every task
whose id matches, and is returned.  (`findIndex` followed by indexing
is the first match, i.e. `find?`.) -/
def toggleTaskCompletion (tasks : List Task) (taskId : Nat) :
    List Task × Except String Task :=
  match tasks.find? (fun task => task.id == taskId) with
  | none => (tasks, .error "Task not found")
  | some task =>
    let updatedTask := { task with completed := !task.completed }
    (tasks.map (fun t => if t.id == taskId then updatedTask else t),
      .ok updatedTask)

/-- Property names every JS object literal inherits from
`Object.prototype` (its ordinary methods plus the Annex B accessor and
legacy methods).  For these strings the lookup `filters[filterType]` in
src/taskManager.js, line 129, yields the inherited value, which is
truthy, rather than `undefined`. -/
def objectPrototypeNames : List String :=
  ["constructor", "hasOwnProperty", "isPrototypeOf", "propertyIsEnumerable",
   "toLocaleString", "toString", "valueOf", "__proto__", "__defineGetter__",
   "__defineSetter__", "__lookupGetter__", "__lookupSetter__"]

/-- The inherited names whose value, invoked by `Array.prototype.filter`
with an undefined `this`, returns a truthy result on every task rather
than throwing: `constructor` is the `Object` function, which returns
the task object itself, and `toString` returns the string
"[object Undefined]". -/
def truthyPrototypeCallbacks : List String :=
  ["constructor", "toString"]

/-- Embeds `filterTasks` (src/taskManager.js, lines 120-132).  The
`filters` object literal holds the five predicates, but the lookup
`filters[filterType]` also sees the properties inherited from
`Object.prototype`, so `filters[filterType] ? ... : ...` takes the
truthy branch for those names too.  There
`this.tasks.filter(filters[filterType])` throws a `TypeError`: at once
for the non-callable `__proto__` (the literal's prototype object), and
at the first element for the callables that coerce `this` with
`ToObject` (`hasOwnProperty`, `isPrototypeOf`, `propertyIsEnumerable`,
`toLocaleString`, `valueOf` and the Annex B methods), so a non-empty
store throws while an empty store yields `[]`.  The two callbacks that
return a truthy value on every task (`constructor`, `toString`) keep
the whole list.  Only a string that is neither an own key nor an
inherited property reaches the falsy branch returning the list
unchanged. -/
def filterTasks (tasks : List Task) (filterType : String) :
    Except String (List Task) :=
  match filterType with
  | "completed" => .ok (tasks.filter (fun task => task.completed))
  | "incomplete" => .ok (tasks.filter (fun task => !task.completed))
  | "high-priority" => .ok (tasks.filter (fun task => task.priority == "high"))
  | "medium-priority" => .ok (tasks.filter (fun task => task.priority == "medium"))
  | "low-priority" => .ok (tasks.filter (fun task => task.priority == "low"))
  | _ =>
    if filterType ∈ objectPrototypeNames then
      if filterType ∈ truthyPrototypeCallbacks then .ok tasks
      else if filterType = "__proto__" then
        .error "TypeError: filters[filterType] is not a function"
      else if tasks.isEmpty then .ok []
      else .error "TypeError: cannot convert undefined to object"
    else .ok tasks

/-- Character-list version of the JS `String.prototype.includes` test:
does the needle occur as a contiguous run inside the haystack? -/
def containsSeq (needle : List Char) : List Char → Bool
  | [] => needle.isEmpty
  | c :: rest => needle.isPrefixOf (c :: rest) || containsSeq needle rest

/-- Embeds `s.includes(sub)` on JS strings. -/
def strIncludes (s sub : String) : Bool :=
  containsSeq sub.data s.data

/-- Embeds `searchTasks` (src/taskManager.js, lines 135-142): lower-case
the search term and keep the tasks whose lower-cased title or
description contains it. -/
def searchTasks (tasks : List Task) (searchTerm : String) : List Task :=
  let term := jsToLower searchTerm
  tasks.filter (fun task =>
    strIncludes (jsToLower task.title) term ||
      strIncludes (jsToLower task.description) term)

lemma list_set_self {α : Type} (l : List α) (i : Nat) (hi : i < l.length) :
    l.set i l[i] = l := by
  apply List.ext_getElem (by simp)
  intro j hj1 hj2
  rw [List.getElem_set]
  split
  · next he => subst he; rfl
  · rfl

lemma find_none_iff (tasks : List Task) (taskId : Nat) :
    tasks.find? (fun t => t.id == taskId) = none ↔ ∀ t ∈ tasks, t.id ≠ taskId := by
  simp [List.find?_eq_none]

lemma find_nodup (tasks : List Task) (taskId : Nat) (i : Nat)
    (h : (tasks.map Task.id).Nodup) (hi : i < tasks.length)
    (hid : tasks[i].id = taskId) :
    tasks.find? (fun t => t.id == taskId) = some tasks[i] := by
  have h1 : (tasks.find? (fun t => t.id == taskId)).isSome := by
    rw [List.find?_isSome]
    exact ⟨tasks[i], List.getElem_mem hi, by simp [hid]⟩
  obtain ⟨t, ht⟩ := Option.isSome_iff_exists.mp h1
  have htm := List.mem_of_find?_eq_some ht
  have htp : t.id = taskId := by simpa using List.find?_some ht
  have hte : t = tasks[i] :=
    List.inj_on_of_nodup_map h htm (List.getElem_mem hi) (by rw [htp, hid])
  rw [ht, hte]

lemma replace_eq_set (tasks : List Task) (taskId : Nat) (u : Task) (i : Nat)
    (h : (tasks.map Task.id).Nodup) (hi : i < tasks.length)
    (hid : tasks[i].id = taskId) :
    (tasks.map fun task => if task.id == taskId then u else task) = tasks.set i u := by
  apply List.ext_getElem (by simp)
  intro j hj1 hj2
  have hj3 : j < tasks.length := by simpa using hj2
  have hi2 : i < (tasks.map Task.id).length := by simpa using hi
  have hj4 : j < (tasks.map Task.id).length := by simpa using hj3
  rw [List.getElem_map, List.getElem_set]
  by_cases hij : i = j
  · subst hij
    simp [hid]
  · have hne : tasks[j].id ≠ taskId := by
      intro he
      apply hij
      have hmm : (tasks.map Task.id)[i] = (tasks.map Task.id)[j] := by
        rw [List.getElem_map, List.getElem_map, hid, he]
      exact h.getElem_inj_iff.mp hmm
    simp [hne, hij]

lemma updateTask_not_found (tasks : List Task) (taskId : Nat) (u : TaskUpdates)
    (h : ∀ t ∈ tasks, t.id ≠ taskId) :
    updateTask tasks taskId u = (tasks, .error "Task not found") := by
  unfold updateTask
  rw [(find_none_iff tasks taskId).mpr h]

lemma updateTask_found (tasks : List Task) (taskId : Nat) (u : TaskUpdates) (i : Nat)
    (h : (tasks.map Task.id).Nodup) (hi : i < tasks.length)
    (hid : tasks[i].id = taskId) :
    updateTask tasks taskId u =
      (tasks.set i (applyUpdates tasks[i] u), .ok (applyUpdates tasks[i] u)) := by
  unfold updateTask
  rw [find_nodup tasks taskId i h hi hid]
  show (tasks.map fun task => if task.id == taskId then applyUpdates tasks[i] u else task,
      Except.ok (applyUpdates tasks[i] u)) = _
  rw [replace_eq_set tasks taskId (applyUpdates tasks[i] u) i h hi hid]

lemma toggleTask_not_found (tasks : List Task) (taskId : Nat)
    (h : ∀ t ∈ tasks, t.id ≠ taskId) :
    toggleTaskCompletion tasks taskId = (tasks, .error "Task not found") := by
  unfold toggleTaskCompletion
  rw [(find_none_iff tasks taskId).mpr h]

lemma toggleTask_found (tasks : List Task) (taskId : Nat) (i : Nat)
    (h : (tasks.map Task.id).Nodup) (hi : i < tasks.length)
    (hid : tasks[i].id = taskId) :
    toggleTaskCompletion tasks taskId =
      (tasks.set i { tasks[i] with completed := !tasks[i].completed },
        .ok { tasks[i] with completed := !tasks[i].completed }) := by
  unfold toggleTaskCompletion
  rw [find_nodup tasks taskId i h hi hid]
  show (tasks.map fun t =>
      if t.id == taskId then { tasks[i] with completed := !tasks[i].completed } else t,
      Except.ok ({ tasks[i] with completed := !tasks[i].completed })) = _
  rw [replace_eq_set tasks taskId _ i h hi hid]

lemma deleteTask_not_found (tasks : List Task) (taskId : Nat)
    (h : ∀ t ∈ tasks, t.id ≠ taskId) :
    deleteTask tasks taskId = (tasks, false) := by
  unfold deleteTask
  have : tasks.findIdx? (fun task => task.id == taskId) = none := by
    rw [List.findIdx?_eq_none_iff]
    intro x hx
    simpa using h x hx
  rw [this]

lemma deleteTask_found (tasks : List Task) (taskId : Nat)
    (h : ∃ t ∈ tasks, t.id = taskId) :
    deleteTask tasks taskId = (tasks.filter (fun task => task.id != taskId), true) := by
  unfold deleteTask
  obtain ⟨t, htm, hte⟩ := h
  have hne : tasks.findIdx? (fun task => task.id == taskId) ≠ none := by
    intro hn
    rw [List.findIdx?_eq_none_iff] at hn
    have := hn t htm
    simp [hte] at this
  obtain ⟨j, hj⟩ := Option.ne_none_iff_exists.mp hne
  rw [← hj]

lemma containsSeq_nil (h : List Char) : containsSeq [] h = true := by
  cases h <;> rfl

lemma containsSeq_iff (n h : List Char) : containsSeq n h = true ↔ n <:+: h := by
  induction h with
  | nil => simp [containsSeq, List.isEmpty_iff, List.infix_nil]
  | cons c rest ih =>
    rw [containsSeq]
    simp [ List.isPrefixOf_iff_prefix, ih, List.infix_cons_iff]

lemma map_set_eq_of_eq {α β : Type} (l : List α) (i : Nat) (hi : i < l.length)
    (a : α) (f : α → β) (hf : f a = f l[i]) : (l.set i a).map f = l.map f := by
  have hi2 : i < (l.map f).length := by simpa using hi
  rw [List.map_set, hf]
  have he : f l[i] = (l.map f)[i] := (List.getElem_map _).symm
  rw [he, list_set_self]

end TaskManager

namespace TaskManagerV0

open TaskManager

/-- Embeds the constructor of the `TaskManager` class in
src/unnamed/part_000, lines 2-4:
`this.tasks = JSON.parse(localStorage.getItem("tasks")) || []`.
There is no try/catch here: an absent entry yields `null` hence `[]`,
a stored list is used as is, but an entry that fails `JSON.parse`
throws an uncaught `SyntaxError` out of the constructor. -/
def construct (b : Blob) : Except String (List Task) :=
  match b with
  | .absent => .ok []
  | .corrupt => .error "SyntaxError: JSON.parse threw on the stored value"
  | .stored ts => .ok ts

/-- Embeds `filterTasks` of src/unnamed/part_000, lines 69-84: a
`switch` on the filter type whose `default` case returns the whole
list.  A `switch` compares only against its own literal cases, so every
other string, including the `Object.prototype` property names, falls
through to the default. -/
def filterTasks (tasks : List Task) (filterType : String) : List Task :=
  match filterType with
  | "completed" => tasks.filter (fun task => task.completed)
  | "incomplete" => tasks.filter (fun task => !task.completed)
  | "high-priority" => tasks.filter (fun task => task.priority == "high")
  | "medium-priority" => tasks.filter (fun task => task.priority == "medium")
  | "low-priority" => tasks.filter (fun task => task.priority == "low")
  | _ => tasks

end TaskManagerV0

open TaskManager

/-- C2: `addTask` fails with the validation error and leaves the store
unchanged whenever the title is undefined or trims to the empty string;
otherwise it appends exactly one new task at the end of the list and
returns it, with the trimmed title, the trimmed-or-empty description,
the given priority, `completed = false`, and the current time as the
fresh creation timestamp. -/
theorem C2_addTask_spec (tasks : List Task) (now : Nat)
    (title description : Option String) (priority : String) :
    ((∀ s, title = some s → jsTrim s = "") →
      addTask tasks now title description priority =
        (tasks, .error "Task title cannot be empty"))
    ∧ (∀ s, title = some s → jsTrim s ≠ "" →
      addTask tasks now title description priority =
        (tasks ++ [{ id := now, title := jsTrim s,
                     description := (description.map jsTrim).getD "",
                     priority := priority, completed := false, createdAt := now }],
          .ok { id := now, title := jsTrim s,
                description := (description.map jsTrim).getD "",
                priority := priority, completed := false, createdAt := now })) := by
  constructor
  · intro hempty
    cases title with
    | none => rfl
    | some s => simp [addTask, hempty s rfl]
  · intro s hs hne
    subst hs
    simp [addTask, hne]

/-- C2 witness: `addTask` at concrete inputs, failing on a whitespace
title and succeeding on a padded title and description. -/
theorem C2_addTask_spec_witness :
    addTask [] 5 (some "   ") none "low" = ([], .error "Task title cannot be empty")
    ∧ addTask [] 5 (some " Buy milk ") (some " now ") "high" =
        ([{ id := 5, title := "Buy milk", description := "now", priority := "high",
            completed := false, createdAt := 5 }],
          .ok { id := 5, title := "Buy milk", description := "now", priority := "high",
                completed := false, createdAt := 5 }) := by
  constructor
  · apply (C2_addTask_spec [] 5 (some "   ") none "low").1
    intro s hs
    rw [← Option.some.inj hs]
    decide
  · exact ((C2_addTask_spec [] 5 (some " Buy milk ") (some " now ") "high").2
      " Buy milk " rfl (by decide)).trans (by decide)

/-- C4: persisting the list and loading it in a fresh store reproduces
the same sequence of tasks; in src/taskManager.js an absent or
unparsable blob initializes the store to the empty list.  In
src/unnamed/part_000, however, the constructor has no try/catch, so a
blob on which `JSON.parse` throws propagates the exception and startup
fails instead of falling back to the empty list. -/
theorem C4_persistence_roundtrip :
    (∀ tasks : List Task, init (saveTasks tasks) = tasks)
    ∧ init .absent = ([] : List Task)
    ∧ init .corrupt = ([] : List Task)
    ∧ (∀ tasks : List Task, TaskManagerV0.construct (saveTasks tasks) = .ok tasks)
    ∧ TaskManagerV0.construct .absent = .ok ([] : List Task)
    ∧ TaskManagerV0.construct .corrupt =
        .error "SyntaxError: JSON.parse threw on the stored value" :=
  ⟨fun _ => rfl, rfl, rfl, fun _ => rfl, rfl, rfl⟩

/-- C6: `deleteTask` returns true exactly when a task with the given id
is in the store, the resulting list holds exactly the tasks whose id
differs, and when no task matches the store is unchanged and false is
returned; no error is raised in either case (the result type carries no
error). -/
theorem C6_deleteTask_spec (tasks : List Task) (taskId : Nat) :
    ((deleteTask tasks taskId).2 = true ↔ ∃ t ∈ tasks, t.id = taskId)
    ∧ (∀ x, x ∈ (deleteTask tasks taskId).1 ↔ x ∈ tasks ∧ x.id ≠ taskId)
    ∧ ((∀ t ∈ tasks, t.id ≠ taskId) → deleteTask tasks taskId = (tasks, false)) := by
  by_cases hex : ∃ t ∈ tasks, t.id = taskId
  · rw [deleteTask_found tasks taskId hex]
    refine ⟨by simpa using hex, ?_, ?_⟩
    · intro x
      simp [List.mem_filter]
    · intro hall
      exfalso
      obtain ⟨t, htm, hte⟩ := hex
      exact hall t htm hte
  · push_neg at hex
    rw [deleteTask_not_found tasks taskId hex]
    refine ⟨?_, ?_, fun _ => rfl⟩
    · constructor
      · intro hfalse
        exact absurd hfalse (by simp)
      · intro hex2
        obtain ⟨t, htm, hte⟩ := hex2
        exact absurd hte (hex t htm)
    · intro x
      constructor
      · intro hx
        exact ⟨hx, hex x hx⟩
      · intro hx
        exact hx.1

/-- C6 witness: deleting an unknown id from a concrete one-task store
is a no-op returning false. -/
theorem C6_deleteTask_spec_witness :
    deleteTask [{ id := 7, title := "a", description := "", priority := "low",
                  completed := false, createdAt := 7 }] 9 =
      ([{ id := 7, title := "a", description := "", priority := "low",
          completed := false, createdAt := 7 }], false) :=
  (C6_deleteTask_spec [{ id := 7, title := "a", description := "", priority := "low",
                         completed := false, createdAt := 7 }] 9).2.2 (by decide)

/-- C9: `searchTasks` returns exactly the tasks whose lower-cased title
or description contains the lower-cased term as a contiguous substring,
and the empty term returns the full list.  The operation is pure: it
takes the task list and returns a sublist without modifying any state. -/
theorem C9_searchTasks_spec (tasks : List Task) (searchTerm : String) :
    (∀ t, t ∈ searchTasks tasks searchTerm ↔ t ∈ tasks ∧
      ((jsToLower searchTerm).data <:+: (jsToLower t.title).data ∨
        (jsToLower searchTerm).data <:+: (jsToLower t.description).data))
    ∧ searchTasks tasks "" = tasks := by
  constructor
  · intro t
    simp [searchTasks, strIncludes, List.mem_filter, containsSeq_iff]
  · have he : searchTasks tasks "" =
        tasks.filter (fun task => strIncludes (jsToLower task.title) (jsToLower "") ||
          strIncludes (jsToLower task.description) (jsToLower "")) := rfl
    have h0 : (jsToLower "").data = [] := rfl
    rw [he]
    apply List.filter_eq_self.mpr
    intro a _
    simp [strIncludes, h0, containsSeq_nil]

/-- C8: in both versions the five recognized filter types purely select
exactly the matching tasks, and an unrecognized or empty filter type
returns the full list in part_000 and, in src/taskManager.js, exactly
when the string is not a property name inherited from
`Object.prototype`; for those inherited names the lookup
`filters[filterType]` is truthy, and e.g. `filterTasks "__proto__"`
throws a `TypeError` at once while `filterTasks "hasOwnProperty"`
throws on any non-empty store, instead of returning the full list as
the claim states. -/
theorem C8_filterTasks_spec (tasks : List Task) (filterType : String) :
    (∃ l, filterTasks tasks "completed" = .ok l ∧
      ∀ t, t ∈ l ↔ t ∈ tasks ∧ t.completed = true)
    ∧ (∃ l, filterTasks tasks "incomplete" = .ok l ∧
      ∀ t, t ∈ l ↔ t ∈ tasks ∧ t.completed = false)
    ∧ (∃ l, filterTasks tasks "high-priority" = .ok l ∧
      ∀ t, t ∈ l ↔ t ∈ tasks ∧ t.priority = "high")
    ∧ (∃ l, filterTasks tasks "medium-priority" = .ok l ∧
      ∀ t, t ∈ l ↔ t ∈ tasks ∧ t.priority = "medium")
    ∧ (∃ l, filterTasks tasks "low-priority" = .ok l ∧
      ∀ t, t ∈ l ↔ t ∈ tasks ∧ t.priority = "low")
    ∧ (filterType ∉ (["completed", "incomplete", "high-priority", "medium-priority",
        "low-priority"] : List String) → filterType ∉ objectPrototypeNames →
      filterTasks tasks filterType = .ok tasks)
    ∧ filterTasks tasks "" = .ok tasks
    ∧ filterTasks tasks "__proto__" =
        .error "TypeError: filters[filterType] is not a function"
    ∧ (tasks ≠ [] → filterTasks tasks "hasOwnProperty" =
        .error "TypeError: cannot convert undefined to object")
    ∧ (filterType ∉ (["completed", "incomplete", "high-priority", "medium-priority",
        "low-priority"] : List String) →
      TaskManagerV0.filterTasks tasks filterType = tasks) := by
  refine ⟨?_, ?_, ?_, ?_, ?_, ?_, ?_, ?_, ?_, ?_⟩
  · refine ⟨tasks.filter (fun task => task.completed), rfl, ?_⟩
    intro t
    simp [List.mem_filter]
  · refine ⟨tasks.filter (fun task => !task.completed), rfl, ?_⟩
    intro t
    simp [List.mem_filter]
  · refine ⟨tasks.filter (fun task => task.priority == "high"), rfl, ?_⟩
    intro t
    simp [List.mem_filter]
  · refine ⟨tasks.filter (fun task => task.priority == "medium"), rfl, ?_⟩
    intro t
    simp [List.mem_filter]
  · refine ⟨tasks.filter (fun task => task.priority == "low"), rfl, ?_⟩
    intro t
    simp [List.mem_filter]
  · intro hmem hproto
    unfold filterTasks
    split <;> simp_all
  · rfl
  · rfl
  · intro hne
    cases tasks with
    | nil => exact absurd rfl hne
    | cons t ts => rfl
  · intro hmem
    unfold TaskManagerV0.filterTasks
    split <;> simp_all

/-- C8 witness: on a concrete one-task store, an ordinary unrecognized
filter type returns the full list in both versions, while the inherited
name hasOwnProperty makes src/taskManager.js throw. -/
theorem C8_filterTasks_spec_witness :
    filterTasks [{ id := 1, title := "a", description := "", priority := "high",
                   completed := false, createdAt := 1 }] "bogus" =
      .ok [{ id := 1, title := "a", description := "", priority := "high",
             completed := false, createdAt := 1 }]
    ∧ filterTasks [{ id := 1, title := "a", description := "", priority := "high",
                     completed := false, createdAt := 1 }] "hasOwnProperty" =
        .error "TypeError: cannot convert undefined to object"
    ∧ TaskManagerV0.filterTasks
        [{ id := 1, title := "a", description := "", priority := "high",
           completed := false, createdAt := 1 }] "bogus" =
      [{ id := 1, title := "a", description := "", priority := "high",
         completed := false, createdAt := 1 }] := by
  have H := C8_filterTasks_spec
    [{ id := 1, title := "a", description := "", priority := "high",
       completed := false, createdAt := 1 }] "bogus"
  exact ⟨H.2.2.2.2.2.1 (by decide) (by decide),
    H.2.2.2.2.2.2.2.2.1 (by decide),
    H.2.2.2.2.2.2.2.2.2 (by decide)⟩

/-- C3: `updateTask` fails with "Task not found" and leaves the store
unchanged when no task has the given id; otherwise the task at the
matching position is replaced in place by the merge of the defined
fields of the update record, every other task is untouched, and the
merged task is returned.  A field carried as `none` (JS `undefined`) is
ignored, in particular an undefined priority leaves the priority
unchanged. -/
theorem C3_updateTask_spec (tasks : List Task) (taskId : Nat) (u : TaskUpdates)
    (h : (tasks.map Task.id).Nodup) :
    ((∀ t ∈ tasks, t.id ≠ taskId) →
      updateTask tasks taskId u = (tasks, .error "Task not found"))
    ∧ (∀ i, ∀ hi : i < tasks.length, tasks[i].id = taskId →
      updateTask tasks taskId u =
        (tasks.set i (applyUpdates tasks[i] u), .ok (applyUpdates tasks[i] u)))
    ∧ (∀ task : Task, u.priority = none → (applyUpdates task u).priority = task.priority) := by
  refine ⟨updateTask_not_found tasks taskId u, ?_, ?_⟩
  · intro i hi hid
    exact updateTask_found tasks taskId u i h hi hid
  · intro task hp
    simp [applyUpdates, hp]

/-- C3 witness: updating a concrete one-task store with a defined title
and an undefined priority changes the title and keeps the priority. -/
theorem C3_updateTask_spec_witness :
    updateTask [{ id := 1, title := "a", description := "d", priority := "low",
                  completed := false, createdAt := 1 }] 1
        { title := some "b" } =
      ([{ id := 1, title := "b", description := "d", priority := "low",
          completed := false, createdAt := 1 }],
        .ok { id := 1, title := "b", description := "d", priority := "low",
              completed := false, createdAt := 1 })
    ∧ (applyUpdates { id := 1, title := "a", description := "d", priority := "low",
                      completed := false, createdAt := 1 }
        { title := some "b" }).priority = "low" := by
  have H := C3_updateTask_spec
    [{ id := 1, title := "a", description := "d", priority := "low",
       completed := false, createdAt := 1 }] 1 { title := some "b" } (by decide)
  refine ⟨?_, ?_⟩
  · exact (H.2.1 0 (by decide) (by decide)).trans (by decide)
  · exact H.2.2 { id := 1, title := "a", description := "d", priority := "low",
                  completed := false, createdAt := 1 } rfl

lemma toggle_twice_elem (t : Task) :
    ({ { t with completed := !t.completed } with
        completed := !({ t with completed := !t.completed }).completed }) = t := by
  cases t
  simp

/-- C7: `toggleTaskCompletion` fails with "Task not found" when no task
has the given id; otherwise it flips exactly the completed flag of the
task at the matching position, returns the flipped task, and applying
it twice restores the original store and returns the original task. -/
theorem C7_toggleTaskCompletion_spec (tasks : List Task) (taskId : Nat)
    (h : (tasks.map Task.id).Nodup) :
    ((∀ t ∈ tasks, t.id ≠ taskId) →
      toggleTaskCompletion tasks taskId = (tasks, .error "Task not found"))
    ∧ (∀ i, ∀ hi : i < tasks.length, tasks[i].id = taskId →
      toggleTaskCompletion tasks taskId =
        (tasks.set i { tasks[i] with completed := !tasks[i].completed },
          .ok { tasks[i] with completed := !tasks[i].completed })
      ∧ (toggleTaskCompletion (toggleTaskCompletion tasks taskId).1 taskId).1 = tasks
      ∧ (toggleTaskCompletion (toggleTaskCompletion tasks taskId).1 taskId).2 =
          .ok tasks[i]) := by
  refine ⟨toggleTask_not_found tasks taskId, ?_⟩
  intro i hi hid
  have h1 := toggleTask_found tasks taskId i h hi hid
  have hlen : i < (tasks.set i { tasks[i] with completed := !tasks[i].completed }).length := by
    simpa using hi
  have hids := map_set_eq_of_eq tasks i hi
    { tasks[i] with completed := !tasks[i].completed } Task.id rfl
  have h2 : ((tasks.set i { tasks[i] with completed := !tasks[i].completed }).map
      Task.id).Nodup := by
    rw [hids]; exact h
  have hget : (tasks.set i { tasks[i] with completed := !tasks[i].completed })[i] =
      { tasks[i] with completed := !tasks[i].completed } := List.getElem_set_self hlen
  have hid2 : (tasks.set i { tasks[i] with completed := !tasks[i].completed })[i].id =
      taskId := by
    rw [hget]; exact hid
  have h3 := toggleTask_found
    (tasks.set i { tasks[i] with completed := !tasks[i].completed }) taskId i h2 hlen hid2
  have hback : ({ (tasks.set i { tasks[i] with completed := !tasks[i].completed })[i] with
      completed :=
        !(tasks.set i { tasks[i] with completed := !tasks[i].completed })[i].completed })
      = tasks[i] := by
    rw [hget]
    exact toggle_twice_elem tasks[i]
  refine ⟨h1, ?_, ?_⟩
  · rw [h1]
    show (toggleTaskCompletion
      (tasks.set i { tasks[i] with completed := !tasks[i].completed }) taskId).1 = tasks
    rw [h3]
    show (tasks.set i { tasks[i] with completed := !tasks[i].completed }).set i
      ({ (tasks.set i { tasks[i] with completed := !tasks[i].completed })[i] with
        completed :=
          !(tasks.set i { tasks[i] with completed := !tasks[i].completed })[i].completed })
      = tasks
    rw [hback, List.set_set]
    exact list_set_self tasks i hi
  · rw [h1]
    show (toggleTaskCompletion
      (tasks.set i { tasks[i] with completed := !tasks[i].completed }) taskId).2 =
      .ok tasks[i]
    rw [h3]
    show Except.ok
      ({ (tasks.set i { tasks[i] with completed := !tasks[i].completed })[i] with
        completed :=
          !(tasks.set i { tasks[i] with completed := !tasks[i].completed })[i].completed })
      = Except.ok tasks[i]
    rw [hback]

/-- C7 witness: toggling a concrete task marks it completed, and
toggling twice restores the store. -/
theorem C7_toggleTaskCompletion_spec_witness :
    toggleTaskCompletion [{ id := 3, title := "a", description := "", priority := "low",
                            completed := false, createdAt := 3 }] 3 =
      ([{ id := 3, title := "a", description := "", priority := "low",
          completed := true, createdAt := 3 }],
        .ok { id := 3, title := "a", description := "", priority := "low",
              completed := true, createdAt := 3 })
    ∧ (toggleTaskCompletion
        (toggleTaskCompletion
          [{ id := 3, title := "a", description := "", priority := "low",
             completed := false, createdAt := 3 }] 3).1 3).1 =
      [{ id := 3, title := "a", description := "", priority := "low",
         completed := false, createdAt := 3 }] := by
  have H := (C7_toggleTaskCompletion_spec
    [{ id := 3, title := "a", description := "", priority := "low",
       completed := false, createdAt := 3 }] 3 (by decide)).2 0 (by decide) (by decide)
  exact ⟨H.1.trans (by decide), H.2.1⟩

/-- C1 counterexample: starting from the empty store, add a task at
time 1 and a task at time 2, then update task 1 with a defined id field
of value 2.  `updateTask` applies every defined field of the update
record, including id, so the store ends with two tasks both carrying
id 2: identifiers are not unique in every reachable store. -/
theorem C1_counterexample :
    ((updateTask
        (addTask (addTask [] 1 (some "a") none "low").1 2 (some "b") none "low").1
        1 { id := some 2 }).1.map Task.id) = [2, 2]
    ∧ ¬ ((updateTask
        (addTask (addTask [] 1 (some "a") none "low").1 2 (some "b") none "low").1
        1 { id := some 2 }).1.map Task.id).Nodup := by
  decide

/-- C1 amended: identifiers stay unique under every operation provided
`addTask` runs at a time that is not already an id in the store and the
update record leaves the id field undefined; an update with a defined
id field (see `C1_counterexample`) or an add at an already-used
timestamp can introduce a duplicate. -/
theorem C1_unique_ids_preserved (tasks : List Task)
    (h : (tasks.map Task.id).Nodup) :
    (∀ now title description priority, now ∉ tasks.map Task.id →
      (((addTask tasks now title description priority).1).map Task.id).Nodup)
    ∧ (∀ taskId, (((deleteTask tasks taskId).1).map Task.id).Nodup)
    ∧ (∀ taskId u, u.id = none →
      (((updateTask tasks taskId u).1).map Task.id).Nodup)
    ∧ (∀ taskId, (((toggleTaskCompletion tasks taskId).1).map Task.id).Nodup) := by
  refine ⟨?_, ?_, ?_, ?_⟩
  · intro now title description priority hfresh
    cases title with
    | none => exact h
    | some s =>
      by_cases hs : jsTrim s = ""
      · simpa [addTask, hs] using h
      · have he : (addTask tasks now (some s) description priority).1 =
            tasks ++ [{ id := now, title := jsTrim s,
                        description := (description.map jsTrim).getD "",
                        priority := priority, completed := false, createdAt := now }] := by
          simp [addTask, hs]
        rw [he, List.map_append, List.map_cons, List.map_nil, ← List.concat_eq_append]
        exact List.Nodup.concat hfresh h
  · intro taskId
    by_cases hex : ∃ t ∈ tasks, t.id = taskId
    · rw [deleteTask_found tasks taskId hex]
      exact List.Nodup.sublist ((List.filter_sublist tasks).map Task.id) h
    · push_neg at hex
      rw [deleteTask_not_found tasks taskId hex]
      exact h
  · intro taskId u hu
    by_cases hex : ∃ t ∈ tasks, t.id = taskId
    · obtain ⟨t, htm, hte⟩ := hex
      obtain ⟨i, hi, he⟩ := List.mem_iff_getElem.mp htm
      have hid : tasks[i].id = taskId := by rw [he]; exact hte
      rw [updateTask_found tasks taskId u i h hi hid]
      rw [map_set_eq_of_eq tasks i hi _ Task.id (by simp [applyUpdates, hu])]
      exact h
    · push_neg at hex
      rw [updateTask_not_found tasks taskId u hex]
      exact h
  · intro taskId
    by_cases hex : ∃ t ∈ tasks, t.id = taskId
    · obtain ⟨t, htm, hte⟩ := hex
      obtain ⟨i, hi, he⟩ := List.mem_iff_getElem.mp htm
      have hid : tasks[i].id = taskId := by rw [he]; exact hte
      rw [toggleTask_found tasks taskId i h hi hid]
      rw [map_set_eq_of_eq tasks i hi
        { tasks[i] with completed := !tasks[i].completed } Task.id rfl]
      exact h
    · push_neg at hex
      rw [toggleTask_not_found tasks taskId hex]
      exact h

/-- C1 witness: on a concrete one-task store, adding at a fresh time and
updating without an id field keep the identifiers unique. -/
theorem C1_unique_ids_preserved_witness :
    (((addTask [{ id := 1, title := "a", description := "", priority := "low",
                  completed := false, createdAt := 1 }] 2 (some "b") none
        "low").1.map Task.id).Nodup)
    ∧ (((updateTask [{ id := 1, title := "a", description := "", priority := "low",
                       completed := false, createdAt := 1 }] 1
        { title := some "z" }).1.map Task.id).Nodup) := by
  have H := C1_unique_ids_preserved
    [{ id := 1, title := "a", description := "", priority := "low",
       completed := false, createdAt := 1 }] (by decide)
  exact ⟨H.1 2 (some "b") none "low" (by decide),
    H.2.2.1 1 { title := some "z" } rfl⟩

/-- C5 counterexample: `updateTask` applies every defined field of the
update record, including createdAt, so an update record carrying a
defined createdAt overwrites the creation timestamp. -/
theorem C5_counterexample :
    (updateTask [{ id := 1, title := "a", description := "", priority := "low",
                   completed := false, createdAt := 1 }] 1
        { createdAt := some 999 }).1 =
      [{ id := 1, title := "a", description := "", priority := "low",
         completed := false, createdAt := 999 }] := by
  decide

/-- C5 amended: createdAt is unchanged by `toggleTaskCompletion`, by
`deleteTask` (every surviving task is one of the original records), and
by `updateTask` whenever the update record leaves createdAt undefined;
an update with a defined createdAt overwrites it
(see `C5_counterexample`). -/
theorem C5_createdAt_preserved (tasks : List Task) (taskId : Nat) (u : TaskUpdates)
    (h : (tasks.map Task.id).Nodup) (hu : u.createdAt = none) :
    ((updateTask tasks taskId u).1.map Task.createdAt = tasks.map Task.createdAt)
    ∧ ((toggleTaskCompletion tasks taskId).1.map Task.createdAt =
        tasks.map Task.createdAt)
    ∧ (∀ t ∈ (deleteTask tasks taskId).1, t ∈ tasks) := by
  refine ⟨?_, ?_, ?_⟩
  · by_cases hex : ∃ t ∈ tasks, t.id = taskId
    · obtain ⟨t, htm, hte⟩ := hex
      obtain ⟨i, hi, he⟩ := List.mem_iff_getElem.mp htm
      have hid : tasks[i].id = taskId := by rw [he]; exact hte
      rw [updateTask_found tasks taskId u i h hi hid]
      exact map_set_eq_of_eq tasks i hi _ Task.createdAt (by simp [applyUpdates, hu])
    · push_neg at hex
      rw [updateTask_not_found tasks taskId u hex]
  · by_cases hex : ∃ t ∈ tasks, t.id = taskId
    · obtain ⟨t, htm, hte⟩ := hex
      obtain ⟨i, hi, he⟩ := List.mem_iff_getElem.mp htm
      have hid : tasks[i].id = taskId := by rw [he]; exact hte
      rw [toggleTask_found tasks taskId i h hi hid]
      exact map_set_eq_of_eq tasks i hi _ Task.createdAt rfl
    · push_neg at hex
      rw [toggleTask_not_found tasks taskId hex]
  · intro t ht
    by_cases hex : ∃ x ∈ tasks, x.id = taskId
    · rw [deleteTask_found tasks taskId hex] at ht
      exact (List.mem_filter.mp ht).1
    · push_neg at hex
      rw [deleteTask_not_found tasks taskId hex] at ht
      exact ht

/-- C5 witness: on a concrete one-task store, an update record without a
createdAt field and a toggle both keep the creation timestamp. -/
theorem C5_createdAt_preserved_witness :
    ((updateTask [{ id := 1, title := "a", description := "", priority := "low",
                    completed := false, createdAt := 11 }] 1
        { title := some "b" }).1.map Task.createdAt = [11])
    ∧ ((toggleTaskCompletion
        [{ id := 1, title := "a", description := "", priority := "low",
           completed := false, createdAt := 11 }] 1).1.map
        Task.createdAt = [11]) := by
  have H := C5_createdAt_preserved
    [{ id := 1, title := "a", description := "", priority := "low",
       completed := false, createdAt := 11 }] 1 { title := some "b" }
    (by decide) rfl
  exact ⟨H.1.trans (by decide), H.2.1.trans (by decide)⟩

/-- C10: every operation preserves the relative order of the remaining
tasks: `addTask` appends at the end, `deleteTask` returns a sublist of
the store, `updateTask` and `toggleTaskCompletion` replace the matching
task in place at its position, and `searchTasks`, `filterTasks` of
part_000 and every list that `filterTasks` of src/taskManager.js
returns (on the throwing inputs it returns nothing) are sublists of the
store, i.e. results in store order. -/
theorem C10_order_preserved (tasks : List Task) (h : (tasks.map Task.id).Nodup) :
    (∀ now s description priority, jsTrim s ≠ "" →
      (addTask tasks now (some s) description priority).1 =
        tasks ++ [{ id := now, title := jsTrim s,
                    description := (description.map jsTrim).getD "",
                    priority := priority, completed := false, createdAt := now }])
    ∧ (∀ taskId, ((deleteTask tasks taskId).1).Sublist tasks)
    ∧ (∀ taskId u i, ∀ hi : i < tasks.length, tasks[i].id = taskId →
        (updateTask tasks taskId u).1 = tasks.set i (applyUpdates tasks[i] u))
    ∧ (∀ taskId i, ∀ hi : i < tasks.length, tasks[i].id = taskId →
        (toggleTaskCompletion tasks taskId).1 =
          tasks.set i { tasks[i] with completed := !tasks[i].completed })
    ∧ (∀ filterType l, filterTasks tasks filterType = .ok l → l.Sublist tasks)
    ∧ (∀ filterType, (TaskManagerV0.filterTasks tasks filterType).Sublist tasks)
    ∧ (∀ searchTerm, (searchTasks tasks searchTerm).Sublist tasks) := by
  refine ⟨?_, ?_, ?_, ?_, ?_, ?_, ?_⟩
  · intro now s description priority hs
    simp [addTask, hs]
  · intro taskId
    by_cases hex : ∃ t ∈ tasks, t.id = taskId
    · rw [deleteTask_found tasks taskId hex]
      exact List.filter_sublist tasks
    · push_neg at hex
      rw [deleteTask_not_found tasks taskId hex]
  · intro taskId u i hi hid
    rw [updateTask_found tasks taskId u i h hi hid]
  · intro taskId i hi hid
    rw [toggleTask_found tasks taskId i h hi hid]
  · intro filterType l hl
    unfold filterTasks at hl
    split at hl
    · injection hl with h2
      subst h2
      exact List.filter_sublist tasks
    · injection hl with h2
      subst h2
      exact List.filter_sublist tasks
    · injection hl with h2
      subst h2
      exact List.filter_sublist tasks
    · injection hl with h2
      subst h2
      exact List.filter_sublist tasks
    · injection hl with h2
      subst h2
      exact List.filter_sublist tasks
    · split at hl
      · split at hl
        · injection hl with h2
          subst h2
          exact List.Sublist.refl tasks
        · split at hl
          · simp at hl
          · split at hl
            · injection hl with h2
              subst h2
              exact List.nil_sublist tasks
            · simp at hl
      · injection hl with h2
        subst h2
        exact List.Sublist.refl tasks
  · intro filterType
    unfold TaskManagerV0.filterTasks
    split <;> first
      | exact List.filter_sublist tasks
      | exact List.Sublist.refl tasks
  · intro searchTerm
    exact List.filter_sublist tasks

/-- C10 witness: on a concrete one-task store, add appends at the end
and update replaces in place. -/
theorem C10_order_preserved_witness :
    (addTask [{ id := 1, title := "a", description := "", priority := "low",
                completed := false, createdAt := 1 }] 2 (some "b") none "low").1 =
      [{ id := 1, title := "a", description := "", priority := "low",
         completed := false, createdAt := 1 },
       { id := 2, title := "b", description := "", priority := "low",
         completed := false, createdAt := 2 }]
    ∧ (updateTask [{ id := 1, title := "a", description := "", priority := "low",
                     completed := false, createdAt := 1 }] 1
        { title := some "c" }).1 =
      [{ id := 1, title := "c", description := "", priority := "low",
         completed := false, createdAt := 1 }] := by
  have H := C10_order_preserved
    [{ id := 1, title := "a", description := "", priority := "low",
       completed := false, createdAt := 1 }] (by decide)
  exact ⟨(H.1 2 "b" none "low" (by decide)).trans (by decide),
    (H.2.2.1 1 { title := some "c" } 0 (by decide) (by decide)).trans (by decide)⟩
